import Mathlib

/-!
Verification development for the property-inspection core:
shallow embedding of the risk-scoring engine (`risk_calculator.py`),
the defect normalizer (`analyzer.py::_parse_response`), the request
orchestrator (`analyzer.py::analyze_image` / `analyze_frames`), the frame
sampler (`detector.py::_extract_frames`) and the coordinate mapper
(`detector.py::annotate_yolo` plus the spec-described `annotate_image`).
Python floats are modelled as exact rationals; machine-level floating
point behaviour is out of scope of these statements.
-/

namespace Inspect

/-! ## Configuration (`config.py`) -/

/-- Table `DEFECT_TYPES` from `config.py`, restricted to the base severity
weight of each taxonomy entry (the only field risk scoring reads). -/
def DEFECT_TYPES : List (String × ℚ) :=
  [ ("structural_crack", 95/100)
  , ("wall_crack", 80/100)
  , ("ceiling_crack", 85/100)
  , ("floor_damage", 70/100)
  , ("water_damage", 90/100)
  , ("mold", 85/100)
  , ("peeling_paint", 40/100)
  , ("electrical_hazard", 1)
  , ("exposed_wiring", 1)
  , ("broken_fixture", 55/100)
  , ("plumbing_issue", 75/100)
  , ("window_damage", 50/100)
  , ("staircase_damage", 80/100)
  , ("other", 30/100)
  ]

/-- The taxonomy key set (`DEFECT_TYPES.keys()` in the source). -/
def validTypes : List String := DEFECT_TYPES.map Prod.fst

/-- Table `PRIORITY_ORDER` from `config.py`. -/
def PRIORITY_ORDER : List (String × ℕ) :=
  [("critical", 0), ("high", 1), ("medium", 2), ("low", 3)]

/-- Python `dict.get(k, default)` on an association list. -/
def alistGetD {α : Type} (l : List (String × α)) (k : String) (d : α) : α :=
  match l.find? (fun p => p.1 = k) with
  | some p => p.2
  | none => d

/-! ## Risk scoring (`risk_calculator.py`) -/

/-- One defect record as the scoring engine reads it: `d.get("type",
"other")` and `d.get("severity", "medium")`.  A missing key behaves
exactly like its default string, so the model stores the two strings. -/
structure Defect where
  type : String
  severity : String
deriving DecidableEq, Repr

/-- One frame analysis as the scoring engine reads it
(`analysis.get("defects", [])`). -/
structure Analysis where
  defects : List Defect
deriving DecidableEq, Repr

/-- Lookup `{"critical": 1.0, "high": 0.75, "medium": 0.5, "low": 0.25}.get(severity, 0.5)`. -/
def severityMult (s : String) : ℚ :=
  alistGetD [("critical", 1), ("high", 3/4), ("medium", 1/2), ("low", 1/4)] s (1/2)

/-- Lookup `DEFECT_TYPES.get(dtype, DEFECT_TYPES["other"])["weight"]`. -/
def typeWeight (t : String) : ℚ :=
  alistGetD DEFECT_TYPES t (30/100)

/-- Term `cfg["weight"] * severity_mult * 25` — one defect's score contribution. -/
def contribution (d : Defect) : ℚ :=
  typeWeight d.type * severityMult d.severity * 25

/-- Round half to even (Python `round`'s tie-breaking) to an integer. -/
def roundHalfEven (q : ℚ) : ℤ :=
  if q - ⌊q⌋ < 1/2 then ⌊q⌋
  else if 1/2 < q - ⌊q⌋ then ⌊q⌋ + 1
  else if Even ⌊q⌋ then ⌊q⌋ else ⌊q⌋ + 1

/-- Python `round(x, 1)` modelled exactly on rationals. -/
def pyRound1 (q : ℚ) : ℚ := (roundHalfEven (q * 10) : ℚ) / 10

/-- Bump a key of the `defect_counts` histogram (Python dict update,
first-insertion position kept). -/
def bumpCount (l : List (String × ℕ)) (k : String) : List (String × ℕ) :=
  match l with
  | [] => [(k, 1)]
  | (k', n) :: rest =>
    if k' = k then (k', n + 1) :: rest else (k', n) :: bumpCount rest k

/-- Result record of `score_frame`. -/
structure FrameScore where
  score : ℚ
  risk_level : String
  critical_count : ℕ
  high_count : ℕ
  defect_counts : List (String × ℕ)
deriving DecidableEq, Repr

/-- The fold state of `score_frame`'s loop. -/
structure ScoreAcc where
  weighted_sum : ℚ
  critical_count : ℕ
  high_count : ℕ
  defect_counts : List (String × ℕ)
deriving Repr

/-- One iteration of `score_frame`'s loop over `defects`. -/
def scoreStep (acc : ScoreAcc) (d : Defect) : ScoreAcc :=
  { weighted_sum := acc.weighted_sum + contribution d
  , critical_count := if d.severity = "critical" then acc.critical_count + 1 else acc.critical_count
  , high_count :=
      if d.severity = "critical" then acc.high_count
      else if d.severity = "high" then acc.high_count + 1 else acc.high_count
  , defect_counts := bumpCount acc.defect_counts d.type
  }

/-- Function `score_frame` from `risk_calculator.py`. -/
def scoreFrame (analysis : Analysis) : FrameScore :=
  if analysis.defects = [] then
    { score := 0, risk_level := "safe", critical_count := 0, high_count := 0, defect_counts := [] }
  else
    let acc := analysis.defects.foldl scoreStep ⟨0, 0, 0, []⟩
    let raw_score := min 100 acc.weighted_sum
    let risk_level :=
      if 70 ≤ raw_score ∨ 2 ≤ acc.critical_count then "critical"
      else if 45 ≤ raw_score ∨ 1 ≤ acc.critical_count then "high"
      else if 20 ≤ raw_score then "medium"
      else "low"
    { score := pyRound1 raw_score
    , risk_level := risk_level
    , critical_count := acc.critical_count
    , high_count := acc.high_count
    , defect_counts := acc.defect_counts
    }

/-- A flattened defect tagged with its source frame index
(`{**d, "frame_index": i}`). -/
structure TaggedDefect where
  defect : Defect
  frame_index : ℕ
deriving DecidableEq, Repr

/-- Key `PRIORITY_ORDER.get(d.get("severity", "low"), 3)` — the sort key of
`priority_actions`. -/
def prioKey (d : TaggedDefect) : ℕ :=
  alistGetD PRIORITY_ORDER d.defect.severity 3

/-- Python `max` over a non-empty list (the `[]` case is unreachable in
`score_property`). -/
def listMax (l : List ℚ) : ℚ :=
  match l with
  | [] => 0
  | x :: xs => xs.foldl max x

/-- Python's stable `sorted(·, key=...)` modelled as insertion sort on the
key order (any stable sort computes the same list). -/
def pySortedByPrio (l : List TaggedDefect) : List TaggedDefect :=
  List.insertionSort (fun a b => prioKey a ≤ prioKey b) l

/-- Result record of `score_property`. -/
structure PropertyScore where
  overall_score : ℚ
  risk_level : String
  total_defects : ℕ
  critical_defects : ℕ
  high_defects : ℕ
  frame_scores : List FrameScore
  priority_actions : List TaggedDefect
  all_defects : List TaggedDefect
deriving DecidableEq, Repr

/-- The flattening loop of `score_property`: every defect tagged with its
frame index, in input order. -/
def allDefects (frames : List Analysis) : List TaggedDefect :=
  (frames.enum.map (fun p => p.2.defects.map (fun d => TaggedDefect.mk d p.1))).flatten

/-- Function `score_property` from `risk_calculator.py`. -/
def scoreProperty (frame_analyses : List Analysis) : PropertyScore :=
  if frame_analyses = [] then
    { overall_score := 0, risk_level := "safe", total_defects := 0, critical_defects := 0
    , high_defects := 0, frame_scores := [], priority_actions := [], all_defects := [] }
  else
    let frame_scores := frame_analyses.map scoreFrame
    let all_defects := allDefects frame_analyses
    let total_defects := all_defects.length
    let critical_defects := (all_defects.filter (fun d => d.defect.severity = "critical")).length
    let high_defects := (all_defects.filter (fun d => d.defect.severity = "high")).length
    let scores := frame_scores.map FrameScore.score
    let overall :=
      if scores = [] then (0 : ℚ)
      else (2/5) * (scores.sum / scores.length) + (3/5) * listMax scores
    let overall := min 100 overall
    let risk_level :=
      if 70 ≤ overall ∨ 3 ≤ critical_defects then "critical"
      else if 45 ≤ overall ∨ 1 ≤ critical_defects then "high"
      else if 20 ≤ overall then "medium"
      else "low"
    { overall_score := pyRound1 overall
    , risk_level := risk_level
    , total_defects := total_defects
    , critical_defects := critical_defects
    , high_defects := high_defects
    , frame_scores := frame_scores
    , priority_actions := (pySortedByPrio all_defects).take 5
    , all_defects := all_defects
    }

/-! ## JSON values and a model of Python's `json.loads`

The normalizer calls the standard-library JSON decoder.  The model below
implements strict decoding for the fragment the oracle contract uses
(objects, arrays, strings with simple escapes, integers, booleans, null);
unsupported forms (floats, `\u` escapes) simply fail to decode, which is
the conservative direction for every theorem stated about the normalizer. -/

inductive JValue where
  | null
  | bool (b : Bool)
  | num (n : ℤ)
  | str (s : String)
  | arr (elems : List JValue)
  | obj (fields : List (String × JValue))

/-- JSON inter-token whitespace (RFC 8259: space, tab, LF, CR). -/
def isJsonWS (c : Char) : Bool :=
  c = ' ' ∨ c = '\t' ∨ c = '\n' ∨ c = '\r'

/-- Python string/regex whitespace (` \t\n\r\v\f`), used by `str.strip`
and the `\s*` parts of the fence-stripping regexes. -/
def isPyWS (c : Char) : Bool :=
  c = ' ' ∨ c = '\t' ∨ c = '\n' ∨ c = '\r' ∨ c = Char.ofNat 11 ∨ c = Char.ofNat 12

def skipWs (cs : List Char) : List Char := cs.dropWhile isJsonWS

/-- Python dict insertion: replace the value at the first occurrence of
the key, else append (insertion order of first occurrence is kept). -/
def insertKey (l : List (String × JValue)) (k : String) (v : JValue) :
    List (String × JValue) :=
  match l with
  | [] => [(k, v)]
  | (k', v') :: rest =>
    if k' = k then (k', v) :: rest else (k', v') :: insertKey rest k v

/-- JSON string body after the opening quote; supports the single-character
escapes, fails on anything else (e.g. `\u`). -/
def parseStringBody : List Char → List Char → Option (String × List Char)
  | [], _ => none
  | '"' :: rest, acc => some (String.mk acc.reverse, rest)
  | '\\' :: '"' :: rest, acc => parseStringBody rest ('"' :: acc)
  | '\\' :: '\\' :: rest, acc => parseStringBody rest ('\\' :: acc)
  | '\\' :: '/' :: rest, acc => parseStringBody rest ('/' :: acc)
  | '\\' :: 'n' :: rest, acc => parseStringBody rest ('\n' :: acc)
  | '\\' :: 't' :: rest, acc => parseStringBody rest ('\t' :: acc)
  | '\\' :: 'r' :: rest, acc => parseStringBody rest ('\r' :: acc)
  | '\\' :: 'b' :: rest, acc => parseStringBody rest (Char.ofNat 8 :: acc)
  | '\\' :: 'f' :: rest, acc => parseStringBody rest (Char.ofNat 12 :: acc)
  | '\\' :: _, _ => none
  | c :: rest, acc => parseStringBody rest (c :: acc)

/-- A JSON integer literal (no leading zeros, no fraction/exponent —
those fail, see the module comment). -/
def parseNumber (cs : List Char) : Option (JValue × List Char) :=
  let core := fun (cs : List Char) (neg : Bool) =>
    let ds := cs.takeWhile Char.isDigit
    let rest := cs.dropWhile Char.isDigit
    if ds = [] then none
    else if 1 < ds.length ∧ ds.headI = '0' then none
    else match rest with
      | '.' :: _ => none
      | 'e' :: _ => none
      | 'E' :: _ => none
      | _ =>
        let n : ℤ := ds.foldl (fun a c => a * 10 + (c.toNat - 48 : ℤ)) 0
        some (JValue.num (if neg then -n else n), rest)
  match cs with
  | '-' :: rest => core rest true
  | _ => core cs false

mutual

/-- One JSON value, fuel-indexed; the input is positioned at the first
non-whitespace character of the value. -/
def parseVal : ℕ → List Char → Option (JValue × List Char)
  | 0, _ => none
  | fuel + 1, cs =>
    match cs with
    | [] => none
    | c :: rest =>
      if c = '{' then
        match skipWs rest with
        | '}' :: rest' => some (.obj [], rest')
        | rest' => parseMembers fuel rest' []
      else if c = '[' then
        match skipWs rest with
        | ']' :: rest' => some (.arr [], rest')
        | rest' => parseElems fuel rest' []
      else if c = '"' then
        (parseStringBody rest []).map (fun p => (.str p.1, p.2))
      else if c = 't' then
        if rest.take 3 = ['r', 'u', 'e'] then some (.bool true, rest.drop 3) else none
      else if c = 'f' then
        if rest.take 4 = ['a', 'l', 's', 'e'] then some (.bool false, rest.drop 4) else none
      else if c = 'n' then
        if rest.take 3 = ['u', 'l', 'l'] then some (.null, rest.drop 3) else none
      else if c = '-' ∨ c.isDigit then parseNumber cs
      else none

/-- Object members, input positioned at the start of a member key. -/
def parseMembers : ℕ → List Char → List (String × JValue) →
    Option (JValue × List Char)
  | 0, _, _ => none
  | fuel + 1, cs, acc =>
    match cs with
    | '"' :: rest =>
      match parseStringBody rest [] with
      | none => none
      | some (k, r1) =>
        match skipWs r1 with
        | ':' :: r2 =>
          match parseVal fuel (skipWs r2) with
          | none => none
          | some (v, r3) =>
            match skipWs r3 with
            | ',' :: r4 => parseMembers fuel (skipWs r4) (insertKey acc k v)
            | '}' :: r4 => some (.obj (insertKey acc k v), r4)
            | _ => none
        | _ => none
    | _ => none

/-- Array elements, input positioned at the start of an element. -/
def parseElems : ℕ → List Char → List JValue → Option (JValue × List Char)
  | 0, _, _ => none
  | fuel + 1, cs, acc =>
    match parseVal fuel cs with
    | none => none
    | some (v, r) =>
      match skipWs r with
      | ',' :: r2 => parseElems fuel (skipWs r2) (acc ++ [v])
      | ']' :: r2 => some (.arr (acc ++ [v]), r2)
      | _ => none

end

/-- Model of `json.loads`: strict decoding of a whole document, rejecting
trailing garbage. -/
def jsonLoads (cs : List Char) : Option JValue :=
  match parseVal (cs.length + 1) (skipWs cs) with
  | some (v, rest) => if skipWs rest = [] then some v else none
  | none => none

/-! ## Defect normalizer (`analyzer.py::_parse_response`) -/

/-- Python `str.strip()`. -/
def pyStrip (cs : List Char) : List Char :=
  ((cs.dropWhile isPyWS).reverse.dropWhile isPyWS).reverse

/-- Model of `re.sub(r"^```(?:json)?\s*", "", cleaned)` on already-stripped text. -/
def stripLeadFence (cs : List Char) : List Char :=
  if cs.take 7 = "```json".data then (cs.drop 7).dropWhile isPyWS
  else if cs.take 3 = "```".data then (cs.drop 3).dropWhile isPyWS
  else cs

/-- Model of `re.sub(r"\s*```$", "", cleaned)` on already-stripped text (so `$`
can only match at the end of the string). -/
def stripTrailFence (cs : List Char) : List Char :=
  if cs.reverse.take 3 = ['`', '`', '`'] then
    ((cs.reverse.drop 3).dropWhile isPyWS).reverse
  else cs

/-- Model of `re.search(r"\x7b[\s\S]*\x7d", cleaned)`: the span from the first `{` to
the last `}`, or `[]` when the pattern has no match. -/
def extractBraces (cs : List Char) : List Char :=
  let t1 := cs.dropWhile (fun c => ¬ c = '{')
  (t1.reverse.dropWhile (fun c => ¬ c = '}')).reverse

/-- The dict returned by `_parse_response` / `analyze_image` /
`analyze_frames`; `error = none` models the key being absent. -/
structure FrameAnalysis where
  defects : JValue
  room_condition : JValue
  summary : JValue
  error : Option String

/-- Python `d.get(k)` on a decoded JSON object. -/
def dget (l : List (String × JValue)) (k : String) : Option JValue :=
  (l.find? (fun p => p.1 = k)).map Prod.snd

/-- Check `d.get("type") not in valid_types`, negated: the value is one of the
taxonomy's key strings. -/
def isValidTypeV (v : Option JValue) : Bool :=
  match v with
  | some (.str t) => validTypes.contains t
  | _ => false

/-- Check `d.get("severity") not in ("critical", "high", "medium", "low")`, negated. -/
def isValidSeverityV (v : Option JValue) : Bool :=
  match v with
  | some (.str s) => ["critical", "high", "medium", "low"].contains s
  | _ => false

/-- Check `"bbox" in d and isinstance(d["bbox"], list) and len(d["bbox"]) == 4`. -/
def isGoodBBox (v : Option JValue) : Bool :=
  match v with
  | some (.arr xs) => xs.length = 4
  | _ => false

/-- The fallback full-image box `[0, 0, 1000, 1000]`. -/
def fullBBox : JValue := .arr [.num 0, .num 0, .num 1000, .num 1000]

/-- First repair of the normalization loop: unrecognized `type` becomes
`"other"`. -/
def fixType (d : List (String × JValue)) : List (String × JValue) :=
  if isValidTypeV (dget d "type") then d else insertKey d "type" (.str "other")

/-- Second repair: unrecognized `severity` becomes `"medium"`. -/
def fixSeverity (d : List (String × JValue)) : List (String × JValue) :=
  if isValidSeverityV (dget d "severity") then d else insertKey d "severity" (.str "medium")

/-- Third repair: a missing, non-list or wrong-arity `bbox` becomes the
full-image box. -/
def fixBBox (d : List (String × JValue)) : List (String × JValue) :=
  if isGoodBBox (dget d "bbox") then d else insertKey d "bbox" fullBBox

/-- The three in-place repairs the normalization loop applies to one
defect dict, in source order. -/
def normalizeDefect (d : List (String × JValue)) : List (String × JValue) :=
  fixBBox (fixSeverity (fixType d))

/-- Loop `for d in defects: ...` — iterating the `defects` value.  A list of
dicts is normalized element-wise; iterating a non-empty string or dict
yields strings and raises `AttributeError` at `d.get`; non-iterables
raise `TypeError`; empty iterables leave the value untouched. -/
def normalizeElem (x : JValue) : Except String JValue :=
  match x with
  | .obj d => Except.ok (JValue.obj (normalizeDefect d))
  | _ => Except.error "AttributeError: object has no attribute get"

def normalizeDefects (v : JValue) : Except String JValue :=
  match v with
  | .arr xs => (xs.mapM normalizeElem).map JValue.arr
  | .str s =>
    if s = "" then .ok (.str "")
    else .error "AttributeError: object has no attribute get"
  | .obj kvs =>
    if kvs.isEmpty then .ok (.obj [])
    else .error "AttributeError: object has no attribute get"
  | _ => .error "TypeError: object is not iterable"

/-- Lines 194–209 of `analyzer.py`: `data.get(...)` raises on a decoded
document that is not an object. -/
def normalizePhase (data : JValue) : Except String FrameAnalysis :=
  match data with
  | .obj kvs =>
    (normalizeDefects ((dget kvs "defects").getD (.arr []))).map (fun nd =>
      { defects := nd
      , room_condition := (dget kvs "room_condition").getD (.str "unknown")
      , summary := (dget kvs "summary").getD (.str "No summary available.")
      , error := none })
  | _ => .error "AttributeError: object has no attribute get"

/-- The degraded result of `_parse_response` when no decode succeeds. -/
def degradedParse (text : List Char) : FrameAnalysis :=
  { defects := .arr []
  , room_condition := .str "unknown"
  , summary := .str ("Could not parse AI response. Raw: " ++ String.mk (text.take 300))
  , error := none }

/-- Function `_parse_response` from `analyzer.py`.  An `Except.error` models an
exception escaping to the caller. -/
def parseResponse (text : String) : Except String FrameAnalysis :=
  let cleaned := pyStrip (stripTrailFence (stripLeadFence (pyStrip text.data)))
  match jsonLoads cleaned with
  | some data => normalizePhase data
  | none =>
    let sub := extractBraces cleaned
    if sub = [] then .ok (degradedParse text.data)
    else
      match jsonLoads sub with
      | some data => normalizePhase data
      | none => .ok (degradedParse text.data)

/-! ## Request orchestrator (`analyzer.py::analyze_image`, `analyze_frames`)

The network call `model.generate_content(...)` is the external oracle: it
is modelled as a function from the model name and the attempt index to
either a response text or a raised exception's message.  Everything after
the call is translated from the source. -/

/-- Outcome of one oracle request: a response text, or an exception. -/
inductive OracleResult where
  | ok (text : String)
  | err (msg : String)

/-- An oracle: candidate model name and 0-based attempt index on that
model to the request's outcome. -/
abbrev Oracle : Type := String → ℕ → OracleResult

/-- A frame is observable only through the oracle behaviour it induces. -/
abbrev Frame : Type := Oracle

def MAX_RETRIES : ℕ := 2

/-- Chain `_MODEL_FALLBACK_CHAIN` from `analyzer.py`. -/
def MODEL_FALLBACK_CHAIN : List String :=
  ["gemini-2.5-flash", "gemini-2.0-flash", "gemini-2.0-flash-lite", "gemini-2.5-pro"]

/-- Python `needle in haystack` on strings. -/
def strContains (haystack needle : String) : Bool :=
  go needle.data haystack.data
where
  go (needle : List Char) : List Char → Bool
    | [] => needle.isEmpty
    | c :: rest => needle.isPrefixOf (c :: rest) || go needle rest

/-- Python `str.lower()` (ASCII suffices for the messages involved). -/
def strLower (s : String) : String := String.mk (s.data.map Char.toLower)

/-- Check `"404" in err_str or "not found" in err_str`. -/
def isNotFoundErr (e : String) : Bool :=
  strContains (strLower e) "404" || strContains (strLower e) "not found"

/-- Check `"429" in err_str or "quota" in err_str or "resource" in err_str`. -/
def isRateLimitedErr (e : String) : Bool :=
  strContains (strLower e) "429" || strContains (strLower e) "quota" ||
    strContains (strLower e) "resource"

/-- One loop body iteration: request plus parse, both inside the same
`try`. -/
def attemptOnce (oracle : Oracle) (m : String) (attempt : ℕ) :
    Except String FrameAnalysis :=
  match oracle m attempt with
  | .ok text => parseResponse text
  | .err e => .error e

/-- The inner `for attempt in range(MAX_RETRIES)` loop for one candidate
model.  Returns `.inl lastError` for `break` (advance to the next model)
and `.inr result` for `return` or an uncaught `raise`.  The
`time.sleep` before a retry has no observable effect here. -/
def tryModel (oracle : Oracle) (m : String) :
    (remaining : ℕ) → (attempt : ℕ) → (Option String) ⊕ Except String FrameAnalysis
  | 0, _ => .inl none
  | remaining + 1, attempt =>
    match attemptOnce oracle m attempt with
    | .ok fa => .inr (.ok fa)
    | .error e =>
      if isNotFoundErr e then .inl (some e)
      else if isRateLimitedErr e then
        if 1 ≤ remaining then tryModel oracle m remaining (attempt + 1)
        else .inl (some e)
      else .inr (.error e)

/-- Rendering `str(last_error)` (with `str(None) = "None"`, unreachable
from a non-empty chain). -/
def pyStrOfErr : Option String → String
  | none => "None"
  | some e => e

/-- The degraded terminal dict of `analyze_image` (lines 128–135). -/
def degradedAnalyze (last_error : Option String) : FrameAnalysis :=
  { defects := .arr []
  , room_condition := .str "unknown"
  , summary := .str ("API error after retries: "
      ++ String.mk ((pyStrOfErr last_error).data.take 200)
      ++ ". Check your API key quota at https://ai.dev/rate-limit — "
      ++ "you may need to wait a minute or use a different key.")
  , error := some (pyStrOfErr last_error) }

/-- The outer `for m_name in models_to_try` loop, threading `last_error`. -/
def analyzeLoop (oracle : Oracle) :
    List String → Option String → Except String FrameAnalysis
  | [], last => .ok (degradedAnalyze last)
  | m :: ms, last =>
    match tryModel oracle m MAX_RETRIES 0 with
    | .inr res => res
    | .inl e? =>
      analyzeLoop oracle ms (match e? with | some e => some e | none => last)

/-- Function `analyze_image` from `analyzer.py`. -/
def analyzeImage (oracle : Oracle) (model_name : String) :
    Except String FrameAnalysis :=
  analyzeLoop oracle (model_name :: MODEL_FALLBACK_CHAIN.filter (fun m => ¬ m = model_name)) none

/-- The `except` body of `analyze_frames`' per-frame `try`. -/
def degradedFrame (e : String) : FrameAnalysis :=
  { defects := .arr []
  , room_condition := .str "unknown"
  , summary := .str ("Analysis failed: " ++ e)
  , error := some e }

/-- The loop of `analyze_frames`: results in input order plus the exact
sequence of `progress_callback(current, total)` invocations. -/
def analyzeFramesGo (model_name : String) (total : ℕ) :
    List Frame → ℕ → List FrameAnalysis × List (ℕ × ℕ)
  | [], _ => ([], [])
  | f :: fs, i =>
    let result :=
      match analyzeImage f model_name with
      | .ok r => r
      | .error e => degradedFrame e
    let rest := analyzeFramesGo model_name total fs (i + 1)
    (result :: rest.1, (i + 1, total) :: rest.2)

/-- Function `analyze_frames` from `analyzer.py`: the returned analyses
and the recorded `progress_callback` calls. -/
def analyzeFrames (frames : List Frame) (model_name : String) :
    List FrameAnalysis × List (ℕ × ℕ) :=
  analyzeFramesGo model_name frames.length frames 0

/-! ## Frame sampler (`detector.py::_extract_frames`)

The video stream is abstracted by the number of frames it can deliver;
the image read at source position `r` is represented by `r` itself, so a
sample is `(source position, emitted frame index, timestamp seconds)`. -/

/-- Python `int()` on a rational: truncation toward zero. -/
def pyInt (q : ℚ) : ℤ := if q < 0 then ⌈q⌉ else ⌊q⌋

/-- The `while len(frames) < max_frames` read loop. -/
def extractGo (fps : ℚ) (step : ℕ) :
    (total : ℕ) → (read_idx : ℕ) → (idx : ℕ) → (budget : ℕ) → List (ℕ × ℕ × ℚ)
  | 0, _, _, _ => []
  | _, _, _, 0 => []
  | total + 1, read_idx, idx, budget + 1 =>
    if read_idx % step = 0 then
      (read_idx, idx, (read_idx : ℚ) / fps) ::
        extractGo fps step total (read_idx + 1) (idx + 1) budget
    else
      extractGo fps step total (read_idx + 1) idx (budget + 1)

/-- Function `_extract_frames` from `detector.py`; `fps_raw` is what
`cap.get(cv2.CAP_PROP_FPS)` reports (`0` when unavailable) and `total`
the number of frames the stream delivers before `cap.read()` fails. -/
def extractFrames (fps_raw interval_sec : ℚ) (total max_frames : ℕ) :
    List (ℕ × ℕ × ℚ) :=
  extractGo (if fps_raw = 0 then 25 else fps_raw)
    ((max 1 (pyInt ((if fps_raw = 0 then 25 else fps_raw) * interval_sec))).toNat)
    total 0 0 max_frames

/-- Claim-side variant whose sampling period follows the claim's words
(`round(native_fps * interval_sec)`) instead of the source's `int(...)`;
used only to compare the two. -/
def extractFramesRoundStep (fps_raw interval_sec : ℚ) (total max_frames : ℕ) :
    List (ℕ × ℕ × ℚ) :=
  extractGo (if fps_raw = 0 then 25 else fps_raw)
    ((max 1 (roundHalfEven ((if fps_raw = 0 then 25 else fps_raw) * interval_sec))).toNat)
    total 0 0 max_frames

/-! ## Coordinate mapper / annotator -/

/-- Modelled from the spec: `annotate_image`, the Gemini-path annotator,
is imported from `detector` by `app.py` and `report_generator.py` but its
definition is not among the provided sources; §4.5 of the spec gives its
box mapping: `x_px = x_norm * width / 1000`, `y_px = y_norm * height /
1000` on a `(y_min, x_min, y_max, x_max)` box in 0–1000 normalized
space, with every pixel coordinate clamped to `[0, width-1] × [0,
height-1]`.  Output is `((x1, y1), (x2, y2))` in pixels. -/
def annotateImageBox (width height : ℤ) (bbox : ℤ × ℤ × ℤ × ℤ) :
    (ℤ × ℤ) × (ℤ × ℤ) :=
  let cx : ℤ → ℤ := fun x => max 0 (min (width - 1) (pyInt ((x * width : ℚ) / 1000)))
  let cy : ℤ → ℤ := fun y => max 0 (min (height - 1) (pyInt ((y * height : ℚ) / 1000)))
  ((cx bbox.2.1, cy bbox.1), (cx bbox.2.2.2, cy bbox.2.2.1))

/-- Box handling of `annotate_yolo` in `detector.py` (lines 117–118):
`x1, y1, x2, y2 = map(int, d["bbox"])` — the pixel-space xyxy box is
passed through unchanged (on integer boxes `int` is the identity). -/
def annotateYoloBox (bbox : ℤ × ℤ × ℤ × ℤ) : (ℤ × ℤ) × (ℤ × ℤ) :=
  ((bbox.1, bbox.2.1), (bbox.2.2.1, bbox.2.2.2))

/-! ## Shared lemmas about the scoring engine -/

/-- Number of defects whose severity string is exactly `"critical"`. -/
def criticalCount (ds : List Defect) : ℕ :=
  (ds.filter (fun d => d.severity = "critical")).length

/-- Number of defects whose severity string is exactly `"high"`. -/
def highCount (ds : List Defect) : ℕ :=
  (ds.filter (fun d => d.severity = "high")).length

/-- The frame-level banding precedence, first match wins. -/
def bandFrame (s : ℚ) (cc : ℕ) : String :=
  if 70 ≤ s ∨ 2 ≤ cc then "critical"
  else if 45 ≤ s ∨ 1 ≤ cc then "high"
  else if 20 ≤ s then "medium"
  else "low"

/-- The property-level banding precedence, first match wins. -/
def bandProp (s : ℚ) (cc : ℕ) : String :=
  if 70 ≤ s ∨ 3 ≤ cc then "critical"
  else if 45 ≤ s ∨ 1 ≤ cc then "high"
  else if 20 ≤ s then "medium"
  else "low"

/-- Per-frame scores as `score_property` reads them. -/
def propScores (l : List Analysis) : List ℚ :=
  (l.map scoreFrame).map FrameScore.score

/-- The critical-defect count across all frames. -/
def criticalDefects (l : List Analysis) : ℕ :=
  ((allDefects l).filter (fun d => d.defect.severity = "critical")).length

/-- The clamped overall score of `score_property`. -/
def propOverall (l : List Analysis) : ℚ :=
  min 100 (if propScores l = [] then 0
           else (2/5) * ((propScores l).sum / (propScores l).length) +
                (3/5) * listMax (propScores l))

instance : IsTotal TaggedDefect (fun a b => prioKey a ≤ prioKey b) :=
  ⟨fun a b => le_total _ _⟩

instance : IsTrans TaggedDefect (fun a b => prioKey a ≤ prioKey b) :=
  ⟨fun _ _ _ h1 h2 => le_trans h1 h2⟩

/-- Closed form of the sampler's output: the source read positions that
are multiples of the sampling period, in stream order, capped at
`max_frames`, each paired with a dense 0-based emitted index and the
timestamp `position / fps`. -/
def sampleSpec (fps : ℚ) (step : ℕ) (total max_frames : ℕ) : List (ℕ × ℕ × ℚ) :=
  (List.enumFrom 0 (((List.range' 0 total).filter (fun p => p % step = 0)).take max_frames)).map
    (fun q => (q.2, q.1, (q.2 : ℚ) / fps))

/-- A JSON value that is a number. -/
def isNumV : JValue → Bool
  | .num _ => true
  | _ => false

theorem scoreAcc_foldl (ds : List Defect) : ∀ acc : ScoreAcc,
    (ds.foldl scoreStep acc).weighted_sum = acc.weighted_sum + (ds.map contribution).sum ∧
    (ds.foldl scoreStep acc).critical_count = acc.critical_count + criticalCount ds ∧
    (ds.foldl scoreStep acc).high_count = acc.high_count + highCount ds := by
  induction ds with
  | nil => intro acc; simp [criticalCount, highCount]
  | cons d ds ih =>
    intro acc
    obtain ⟨h1, h2, h3⟩ := ih (scoreStep acc d)
    refine ⟨?_, ?_, ?_⟩
    · rw [List.foldl_cons, h1]
      simp only [scoreStep, List.map_cons, List.sum_cons]
      ring
    · rw [List.foldl_cons, h2]
      simp only [scoreStep, criticalCount, List.filter_cons]
      by_cases hc : d.severity = "critical" <;> simp [hc] <;> omega
    · rw [List.foldl_cons, h3]
      simp only [scoreStep, highCount, List.filter_cons]
      by_cases hc : d.severity = "critical"
      · have : ¬ d.severity = "high" := by rw [hc]; decide
        simp [hc, this]
      · by_cases hh : d.severity = "high" <;> simp [hc, hh] <;> omega

theorem scoreFrame_score_eq (a : Analysis) (h : ¬ a.defects = []) :
    (scoreFrame a).score = pyRound1 (min 100 ((a.defects.map contribution).sum)) := by
  obtain ⟨h1, -, -⟩ := scoreAcc_foldl a.defects ⟨0, 0, 0, []⟩
  simp only [scoreFrame, if_neg h]
  rw [h1]
  norm_num

theorem scoreFrame_level_eq (a : Analysis) (h : ¬ a.defects = []) :
    (scoreFrame a).risk_level =
      bandFrame (min 100 ((a.defects.map contribution).sum)) (criticalCount a.defects) := by
  obtain ⟨h1, h2, -⟩ := scoreAcc_foldl a.defects ⟨0, 0, 0, []⟩
  simp only [scoreFrame, if_neg h, bandFrame]
  rw [h1, h2]
  norm_num

theorem scoreFrame_critical_eq (a : Analysis) :
    (scoreFrame a).critical_count = criticalCount a.defects := by
  by_cases h : a.defects = []
  · simp [scoreFrame, h, criticalCount]
  · obtain ⟨-, h2, -⟩ := scoreAcc_foldl a.defects ⟨0, 0, 0, []⟩
    simp only [scoreFrame, if_neg h]
    rw [h2]
    simp

theorem bandFrame_ne_safe (s : ℚ) (cc : ℕ) : ¬ bandFrame s cc = "safe" := by
  unfold bandFrame
  split_ifs <;> decide

theorem bandProp_ne_safe (s : ℚ) (cc : ℕ) : ¬ bandProp s cc = "safe" := by
  unfold bandProp
  split_ifs <;> decide

theorem bandFrame_critical_of_two (s : ℚ) (cc : ℕ) (h : 2 ≤ cc) :
    bandFrame s cc = "critical" := by
  unfold bandFrame
  rw [if_pos (Or.inr h)]

/-! Nonnegativity facts used to identify the source's one-sided clamp
with the spec's two-sided clamp. -/

theorem typeWeight_nonneg (t : String) : 0 ≤ typeWeight t := by
  unfold typeWeight alistGetD
  cases h : DEFECT_TYPES.find? (fun p => p.1 = t) with
  | none => norm_num
  | some p =>
    have hp := List.mem_of_find?_eq_some h
    fin_cases hp <;> norm_num

theorem severityMult_nonneg (s : String) : 0 ≤ severityMult s := by
  unfold severityMult alistGetD
  cases h : List.find? (fun p => p.1 = s)
      [("critical", (1 : ℚ)), ("high", 3/4), ("medium", 1/2), ("low", 1/4)] with
  | none => norm_num
  | some p =>
    have hp := List.mem_of_find?_eq_some h
    fin_cases hp <;> norm_num

theorem contribution_nonneg (d : Defect) : 0 ≤ contribution d := by
  unfold contribution
  have := typeWeight_nonneg d.type
  have := severityMult_nonneg d.severity
  positivity

theorem sum_contributions_nonneg (ds : List Defect) : 0 ≤ (ds.map contribution).sum := by
  apply List.sum_nonneg
  intro x hx
  obtain ⟨d, -, rfl⟩ := List.mem_map.mp hx
  exact contribution_nonneg d

theorem roundHalfEven_nonneg (q : ℚ) (h : 0 ≤ q) : 0 ≤ roundHalfEven q := by
  unfold roundHalfEven
  have hf : (0 : ℤ) ≤ ⌊q⌋ := Int.floor_nonneg.mpr h
  split_ifs <;> omega

theorem pyRound1_nonneg (q : ℚ) (h : 0 ≤ q) : 0 ≤ pyRound1 q := by
  unfold pyRound1
  have h10 : (0 : ℚ) ≤ q * 10 := by positivity
  have := roundHalfEven_nonneg (q * 10) h10
  have : (0 : ℚ) ≤ (roundHalfEven (q * 10) : ℚ) := by exact_mod_cast this
  positivity

theorem scoreFrame_score_nonneg (a : Analysis) : 0 ≤ (scoreFrame a).score := by
  by_cases h : a.defects = []
  · simp [scoreFrame, h]
  · rw [scoreFrame_score_eq a h]
    apply pyRound1_nonneg
    exact le_min (by norm_num) (sum_contributions_nonneg _)

/-! ## C2: frame scoring -/

/-- C2: `score_frame` returns score 0 and level `"safe"` exactly on an
empty defect list; otherwise every defect contributes
`type_weight * severity_multiplier * 25`, the contributions are summed
and clamped to at most 100, the returned score is that clamped sum
(rounded to one decimal as the source does), and the level follows the
first-match precedence `score≥70 ∨ critical≥2 → critical`,
`score≥45 ∨ critical≥1 → high`, `score≥20 → medium`, else `low`; in
particular two critical defects always band as `critical`. -/
theorem C2_score_frame (a : Analysis) :
    (a.defects = [] →
      scoreFrame a = { score := 0, risk_level := "safe", critical_count := 0
                     , high_count := 0, defect_counts := [] }) ∧
    (¬ a.defects = [] →
      (scoreFrame a).score = pyRound1 (min 100 ((a.defects.map contribution).sum)) ∧
      (scoreFrame a).risk_level =
        (if 70 ≤ min 100 ((a.defects.map contribution).sum) ∨ 2 ≤ criticalCount a.defects
          then "critical"
         else if 45 ≤ min 100 ((a.defects.map contribution).sum) ∨ 1 ≤ criticalCount a.defects
          then "high"
         else if 20 ≤ min 100 ((a.defects.map contribution).sum) then "medium"
         else "low")) ∧
    (2 ≤ criticalCount a.defects → (scoreFrame a).risk_level = "critical") := by
  refine ⟨fun h => by simp [scoreFrame, h], fun h => ⟨scoreFrame_score_eq a h, ?_⟩, fun h2 => ?_⟩
  · rw [scoreFrame_level_eq a h]
    rfl
  · have h : ¬ a.defects = [] := by
      intro he
      rw [he] at h2
      simp [criticalCount] at h2
    rw [scoreFrame_level_eq a h]
    exact bandFrame_critical_of_two _ _ h2

/-- Witness for C2 at concrete inputs. -/
theorem C2_score_frame_witness :
    scoreFrame ⟨[]⟩ = { score := 0, risk_level := "safe", critical_count := 0
                      , high_count := 0, defect_counts := [] } ∧
    (scoreFrame ⟨[⟨"other", "critical"⟩, ⟨"other", "critical"⟩]⟩).risk_level = "critical" :=
  ⟨(C2_score_frame ⟨[]⟩).1 rfl,
   (C2_score_frame ⟨[⟨"other", "critical"⟩, ⟨"other", "critical"⟩]⟩).2.2 (by decide)⟩

/-! ## Shared lemmas about `score_property` -/


theorem scoreProperty_eq (l : List Analysis) (h : ¬ l = []) :
    scoreProperty l =
      { overall_score := pyRound1 (propOverall l)
      , risk_level := bandProp (propOverall l) (criticalDefects l)
      , total_defects := (allDefects l).length
      , critical_defects := criticalDefects l
      , high_defects := ((allDefects l).filter (fun d => d.defect.severity = "high")).length
      , frame_scores := l.map scoreFrame
      , priority_actions := (pySortedByPrio (allDefects l)).take 5
      , all_defects := allDefects l } := by
  simp only [scoreProperty, if_neg h]
  rfl

theorem le_foldl_max (xs : List ℚ) : ∀ acc : ℚ, acc ≤ xs.foldl max acc := by
  induction xs with
  | nil => intro acc; simp
  | cons x xs ih =>
    intro acc
    calc acc ≤ max acc x := le_max_left _ _
    _ ≤ xs.foldl max (max acc x) := ih _

theorem foldl_max_le (xs : List ℚ) : ∀ acc b : ℚ, acc ≤ b → (∀ x ∈ xs, x ≤ b) →
    xs.foldl max acc ≤ b := by
  induction xs with
  | nil => intro acc b hab _; simpa using hab
  | cons x xs ih =>
    intro acc b hab hb
    simp only [List.foldl_cons]
    exact ih _ _ (max_le hab (hb x (by simp))) (fun y hy => hb y (by simp [hy]))

theorem listMax_nonneg (xs : List ℚ) (h : ∀ x ∈ xs, 0 ≤ x) : 0 ≤ listMax xs := by
  cases xs with
  | nil => simp [listMax]
  | cons x xs =>
    unfold listMax
    exact le_trans (h x (by simp)) (le_foldl_max xs x)

theorem listMax_le (xs : List ℚ) (b : ℚ) (hne : ¬ xs = []) (h : ∀ x ∈ xs, x ≤ b) :
    listMax xs ≤ b := by
  cases xs with
  | nil => exact absurd rfl hne
  | cons x xs =>
    unfold listMax
    exact foldl_max_le xs x b (h x (by simp)) (fun y hy => h y (by simp [hy]))

theorem propScores_nonneg (l : List Analysis) : ∀ x ∈ propScores l, 0 ≤ x := by
  intro x hx
  simp only [propScores, List.map_map, List.mem_map] at hx
  obtain ⟨a, -, rfl⟩ := hx
  exact scoreFrame_score_nonneg a

/-- The raw combined average/max score is nonnegative, so the source's
one-sided `min 100` agrees with the spec's two-sided clamp. -/
theorem propOverall_eq_clamp (l : List Analysis) :
    propOverall l =
      min 100 (max 0 (if propScores l = [] then 0
        else (2/5) * ((propScores l).sum / (propScores l).length) +
             (3/5) * listMax (propScores l))) := by
  have hX : 0 ≤ (if propScores l = [] then (0 : ℚ)
      else (2/5) * ((propScores l).sum / (propScores l).length) +
           (3/5) * listMax (propScores l)) := by
    split_ifs with h
    · exact le_refl 0
    · have h1 : 0 ≤ (propScores l).sum := List.sum_nonneg (propScores_nonneg l)
      have h2 : 0 ≤ listMax (propScores l) := listMax_nonneg _ (propScores_nonneg l)
      have h3 : (0 : ℚ) ≤ ((propScores l).length : ℚ) := Nat.cast_nonneg _
      have h4 : 0 ≤ (propScores l).sum / ((propScores l).length : ℚ) := div_nonneg h1 h3
      positivity
  unfold propOverall
  rw [max_eq_right hX]

theorem allDefects_eq_nil (l : List Analysis) (h : ∀ a ∈ l, a.defects = []) :
    allDefects l = [] := by
  unfold allDefects
  rw [List.flatten_eq_nil_iff]
  intro xs hxs
  obtain ⟨p, hp, rfl⟩ := List.mem_map.mp hxs
  have hg := List.mem_enum_iff_getElem?.mp hp
  obtain ⟨hlt, hget⟩ := List.getElem?_eq_some_iff.mp hg
  rw [h p.2 (hget ▸ l.getElem_mem hlt)]
  rfl

theorem listMax_of_all_zero (xs : List ℚ) (h : ∀ x ∈ xs, x = 0) : listMax xs = 0 := by
  cases xs with
  | nil => rfl
  | cons x xs =>
    unfold listMax
    have hx : x = 0 := h x (by simp)
    refine le_antisymm ?_ ?_
    · exact foldl_max_le xs x 0 (le_of_eq hx) (fun y hy => le_of_eq (h y (by simp [hy])))
    · exact hx ▸ le_foldl_max xs x

/-! ## C10: the `safe` band is reserved for empty input -/

/-- C10: `score_frame` yields risk level `"safe"` iff the defect list is
empty, `score_property` yields `"safe"` iff the frame sequence is empty,
and a non-empty sequence of frames that all have zero defects scores 0
and bands as `"low"`, not `"safe"`. -/
theorem C10_safe_only_for_empty :
    (∀ a : Analysis, (scoreFrame a).risk_level = "safe" ↔ a.defects = []) ∧
    (∀ l : List Analysis, (scoreProperty l).risk_level = "safe" ↔ l = []) ∧
    (∀ l : List Analysis, ¬ l = [] → (∀ a ∈ l, a.defects = []) →
      (scoreProperty l).risk_level = "low" ∧ (scoreProperty l).overall_score = 0) := by
  refine ⟨fun a => ⟨fun hs => ?_, fun he => by simp [scoreFrame, he]⟩,
          fun l => ⟨fun hs => ?_, fun he => by simp [scoreProperty, he]⟩,
          fun l hne hall => ?_⟩
  · by_contra he
    rw [scoreFrame_level_eq a he] at hs
    exact bandFrame_ne_safe _ _ hs
  · by_contra he
    rw [scoreProperty_eq l he] at hs
    exact bandProp_ne_safe _ _ hs
  · have hscores : ∀ x ∈ propScores l, x = 0 := by
      intro x hx
      simp only [propScores, List.map_map, List.mem_map] at hx
      obtain ⟨a, ha, rfl⟩ := hx
      simp [Function.comp, scoreFrame, hall a ha]
    have hsum : (propScores l).sum = 0 := List.sum_eq_zero hscores
    have hmax : listMax (propScores l) = 0 := listMax_of_all_zero _ hscores
    have hov : propOverall l = 0 := by
      unfold propOverall
      split_ifs with h0
      · norm_num
      · rw [hsum, hmax]
        norm_num
    have hcd : criticalDefects l = 0 := by
      unfold criticalDefects
      rw [allDefects_eq_nil l hall]
      rfl
    rw [scoreProperty_eq l hne]
    refine ⟨?_, ?_⟩
    · simp only [hov, hcd, bandProp]
      norm_num
    · simp only [hov]
      norm_num [pyRound1, roundHalfEven]

/-- Witness for C10 at concrete inputs. -/
theorem C10_safe_only_for_empty_witness :
    ((scoreFrame ⟨[]⟩).risk_level = "safe" ↔ ([] : List Defect) = []) ∧
    (scoreProperty [⟨[]⟩, ⟨[]⟩]).risk_level = "low" ∧
    (scoreProperty [⟨[]⟩, ⟨[]⟩]).overall_score = 0 :=
  ⟨C10_safe_only_for_empty.1 ⟨[]⟩,
   C10_safe_only_for_empty.2.2 [⟨[]⟩, ⟨[]⟩] (by simp)
     (by
      intro a ha
      simp only [List.mem_cons, List.not_mem_nil, or_false] at ha
      rcases ha with rfl | rfl <;> rfl)⟩

/-! ## C3: property scoring -/

/-- C3: for every non-empty frame sequence the overall score is
`clamp(0.4 * mean(frame_scores) + 0.6 * max(frame_scores), 0, 100)`,
rounded to one decimal on output as the source does, banded with
`70 → critical (or critical_defects ≥ 3)`, `45 → high (or
critical_defects ≥ 1)`, `20 → medium`, else `low`; and the concrete
two-frame example (one critical electrical hazard, one clean frame)
yields `critical_defects = 1`, `overall_score = 20.0`,
`risk_level = "high"`. -/
theorem C3_score_property :
    (∀ l : List Analysis, ¬ l = [] →
      (scoreProperty l).overall_score =
        pyRound1 (min 100 (max 0 ((2/5) * ((propScores l).sum / (propScores l).length) +
          (3/5) * listMax (propScores l)))) ∧
      (scoreProperty l).risk_level =
        (if 70 ≤ propOverall l ∨ 3 ≤ criticalDefects l then "critical"
         else if 45 ≤ propOverall l ∨ 1 ≤ criticalDefects l then "high"
         else if 20 ≤ propOverall l then "medium"
         else "low")) ∧
    ((scoreProperty [⟨[⟨"electrical_hazard", "critical"⟩]⟩, ⟨[]⟩]).critical_defects = 1 ∧
     (scoreProperty [⟨[⟨"electrical_hazard", "critical"⟩]⟩, ⟨[]⟩]).overall_score = 20 ∧
     (scoreProperty [⟨[⟨"electrical_hazard", "critical"⟩]⟩, ⟨[]⟩]).risk_level = "high") := by
  have hex : ¬ ([⟨[⟨"electrical_hazard", "critical"⟩]⟩, ⟨[]⟩] : List Analysis) = [] := by simp
  have hs : propScores [⟨[⟨"electrical_hazard", "critical"⟩]⟩, ⟨[]⟩] = [25, 0] := by
    have h1 : (scoreFrame ⟨[⟨"electrical_hazard", "critical"⟩]⟩).score = 25 := by
      rw [scoreFrame_score_eq _ (by decide)]
      norm_num [contribution, show typeWeight "electrical_hazard" = 1 from rfl,
        show severityMult "critical" = 1 from rfl, pyRound1, roundHalfEven]
    simp only [propScores, List.map_map, List.map_cons, List.map_nil, Function.comp]
    rw [h1, show (scoreFrame ⟨[]⟩).score = 0 from rfl]
  have hov : propOverall [⟨[⟨"electrical_hazard", "critical"⟩]⟩, ⟨[]⟩] = 20 := by
    unfold propOverall
    rw [hs, if_neg (by simp : ¬ ([25, 0] : List ℚ) = [])]
    norm_num [listMax]
  have hcd : criticalDefects [⟨[⟨"electrical_hazard", "critical"⟩]⟩, ⟨[]⟩] = 1 := by decide
  refine ⟨fun l h => ⟨?_, ?_⟩, ?_, ?_, ?_⟩
  · rw [scoreProperty_eq l h, propOverall_eq_clamp]
    have hne : ¬ propScores l = [] := by
      simp only [propScores]
      simpa using h
    rw [if_neg hne]
  · rw [scoreProperty_eq l h]
    rfl
  · rw [scoreProperty_eq _ hex]
    exact hcd
  · rw [scoreProperty_eq _ hex]
    show pyRound1 (propOverall _) = 20
    rw [hov]
    norm_num [pyRound1, roundHalfEven]
  · rw [scoreProperty_eq _ hex]
    show bandProp (propOverall _) (criticalDefects _) = "high"
    rw [hov, hcd]
    norm_num [bandProp]

/-- Witness for C3 at a concrete non-empty input. -/
theorem C3_score_property_witness :
    (scoreProperty [⟨[]⟩]).overall_score =
      pyRound1 (min 100 (max 0 ((2/5) * ((propScores [⟨[]⟩]).sum / (propScores [⟨[]⟩]).length) +
        (3/5) * listMax (propScores [⟨[]⟩])))) :=
  (C3_score_property.1 [⟨[]⟩] (by simp)).1

/-! ## C8: priority actions -/


/-- Stability of the modelled sort: each severity fiber is preserved
verbatim, in input order. -/
theorem pySortedByPrio_filter_eq (xs : List TaggedDefect) (k : ℕ) :
    (pySortedByPrio xs).filter (fun d => prioKey d = k) =
      xs.filter (fun d => prioKey d = k) := by
  set p : TaggedDefect → Bool := fun d => prioKey d = k with hp
  have hcp : ∀ x ∈ xs.filter p, prioKey x = k := by
    intro x hx
    have := List.of_mem_filter hx
    simpa [hp] using this
  have hpair : (xs.filter p).Pairwise (fun a b => prioKey a ≤ prioKey b) := by
    apply List.pairwise_of_forall_mem_list
    intro a ha b hb
    rw [hcp a ha, hcp b hb]
  have hsub : (xs.filter p).Sublist (pySortedByPrio xs) :=
    List.sublist_insertionSort hpair (List.filter_sublist xs)
  have hfc : (xs.filter p).filter p = xs.filter p :=
    List.filter_eq_self.mpr (fun a ha => List.of_mem_filter ha)
  have h2 : (xs.filter p).Sublist ((pySortedByPrio xs).filter p) := hfc ▸ hsub.filter p
  refine (h2.eq_of_length ?_).symm
  rw [← List.countP_eq_length_filter, ← List.countP_eq_length_filter]
  exact ((List.perm_insertionSort _ xs).countP_eq p).symm

/-- C8: `priority_actions` is the flattened, frame-tagged defect list,
stably sorted by severity urgency (critical first, input order preserved
within a severity), truncated to the first 5: the sorted list is ordered
by the urgency key, is a permutation of the flattened list, and keeps
each severity fiber in input order. -/
theorem C8_priority_actions (l : List Analysis) :
    (scoreProperty l).all_defects = allDefects l ∧
    (scoreProperty l).priority_actions = (pySortedByPrio (allDefects l)).take 5 ∧
    List.Sorted (fun a b => prioKey a ≤ prioKey b) (pySortedByPrio (allDefects l)) ∧
    (pySortedByPrio (allDefects l)).Perm (allDefects l) ∧
    (∀ k : ℕ, (pySortedByPrio (allDefects l)).filter (fun d => prioKey d = k) =
      (allDefects l).filter (fun d => prioKey d = k)) := by
  refine ⟨?_, ?_, List.sorted_insertionSort _ _, List.perm_insertionSort _ _,
    fun k => pySortedByPrio_filter_eq _ k⟩
  · by_cases h : l = []
    · subst h; rfl
    · rw [scoreProperty_eq l h]
  · by_cases h : l = []
    · subst h; rfl
    · rw [scoreProperty_eq l h]

/-! ## C5: frame sampler -/


theorem extractGo_eq (fps : ℚ) (step : ℕ) :
    ∀ (total r idx b : ℕ),
    extractGo fps step total r idx b =
      (List.enumFrom idx (((List.range' r total).filter (fun p => p % step = 0)).take b)).map
        (fun q => (q.2, q.1, (q.2 : ℚ) / fps)) := by
  intro total
  induction total with
  | zero => intro r idx b; simp [extractGo]
  | succ t ih =>
    intro r idx b
    cases b with
    | zero => simp [extractGo]
    | succ b' =>
      rw [List.range'_succ]
      by_cases hm : r % step = 0
      · rw [show extractGo fps step (t + 1) r idx (b' + 1) =
            (r, idx, (r : ℚ) / fps) :: extractGo fps step t (r + 1) (idx + 1) b'
          from by rw [extractGo]; rw [if_pos hm]]
        rw [List.filter_cons, if_pos (by simpa using hm), List.take_succ_cons,
          List.enumFrom_cons, List.map_cons]
        rw [ih (r + 1) (idx + 1) b']
      · rw [show extractGo fps step (t + 1) r idx (b' + 1) =
            extractGo fps step t (r + 1) idx (b' + 1)
          from by rw [extractGo]; rw [if_neg hm]]
        rw [List.filter_cons, if_neg (by simpa using hm)]
        exact ih (r + 1) idx (b' + 1)

/-- C5 (amended): the sampler's period is `int(native_fps * interval_sec)`
— truncation, not rounding — floored to at least 1; it emits the frames
at read positions `0, step, 2·step, …` until the stream ends or
`max_frames` samples exist, with dense 0-based emitted indices and
timestamps `read_position / native_fps`; a zero/unavailable fps is
replaced by 25.0; and a 30fps 10s video at `interval_sec = 2`,
`max_frames = 30` yields exactly 5 samples at 0, 2, 4, 6, 8 seconds. -/
theorem C5_extract_frames :
    (∀ (fps interval : ℚ) (total maxf : ℕ), ¬ fps = 0 →
      extractFrames fps interval total maxf =
        sampleSpec fps ((max 1 (pyInt (fps * interval))).toNat) total maxf) ∧
    (∀ (interval : ℚ) (total maxf : ℕ),
      extractFrames 0 interval total maxf = extractFrames 25 interval total maxf) ∧
    ((extractFrames 30 2 300 30).map (fun s => s.2.2) = [0, 2, 4, 6, 8] ∧
     (extractFrames 30 2 300 30).map (fun s => s.2.1) = [0, 1, 2, 3, 4]) := by
  have hgen : ∀ (fps interval : ℚ) (total maxf : ℕ), ¬ fps = 0 →
      extractFrames fps interval total maxf =
        sampleSpec fps ((max 1 (pyInt (fps * interval))).toNat) total maxf := by
    intro fps interval total maxf h
    unfold extractFrames sampleSpec
    rw [if_neg h]
    exact extractGo_eq fps _ total 0 0 maxf
  have hstep : (max 1 (pyInt ((30 : ℚ) * 2))).toNat = 60 := by
    norm_num [pyInt]
    decide
  have hconc : extractFrames 30 2 300 30 = sampleSpec 30 60 300 30 := by
    rw [hgen 30 2 300 30 (by norm_num), hstep]
  have hlist : ((List.range' 0 300).filter (fun p => p % 60 = 0)).take 30
      = [0, 60, 120, 180, 240] := by decide
  refine ⟨hgen, fun interval total maxf => ?_, ?_, ?_⟩
  · unfold extractFrames
    rw [if_pos rfl, if_neg (by norm_num : ¬ (25 : ℚ) = 0)]
  · rw [hconc]
    unfold sampleSpec
    rw [hlist]
    simp only [List.enumFrom, List.map_cons, List.map_nil]
    norm_num
  · rw [hconc]
    unfold sampleSpec
    rw [hlist]
    simp only [List.enumFrom, List.map_cons, List.map_nil]

/-- Witness for C5 at a concrete input. -/
theorem C5_extract_frames_witness :
    ¬ (30 : ℚ) = 0 ∧ extractFrames 30 2 2 1 = sampleSpec 30 60 2 1 := by
  refine ⟨by norm_num, ?_⟩
  have h := C5_extract_frames.1 30 2 2 1 (by norm_num)
  rwa [show (max 1 (pyInt ((30 : ℚ) * 2))).toNat = 60 from by norm_num [pyInt]; decide] at h

/-- Counterexample to C5 as stated: at native fps 7.5 and a 1-second
interval the source's truncating `int(fps * interval)` gives step 7,
while the claim's `round(fps * interval)` gives step 8, so from the
second sample on the two disagree. -/
theorem C5_round_step_counterexample :
    extractFrames (15/2) 1 9 30 = [(0, 0, 0), (7, 1, 14/15)] ∧
    extractFramesRoundStep (15/2) 1 9 30 = [(0, 0, 0), (8, 1, 16/15)] ∧
    ¬ extractFrames (15/2) 1 9 30 = extractFramesRoundStep (15/2) 1 9 30 := by
  have h1 : extractFrames (15/2) 1 9 30 = [(0, 0, 0), (7, 1, 14/15)] := by
    unfold extractFrames
    rw [if_neg (by norm_num : ¬ (15/2 : ℚ) = 0)]
    rw [show (max 1 (pyInt ((15/2 : ℚ) * 1))).toNat = 7 from by norm_num [pyInt]; decide]
    rw [extractGo_eq]
    rw [show ((List.range' 0 9).filter (fun p => p % 7 = 0)).take 30 = [0, 7] from by decide]
    simp only [List.enumFrom, List.map_cons, List.map_nil]
    norm_num
  have h2 : extractFramesRoundStep (15/2) 1 9 30 = [(0, 0, 0), (8, 1, 16/15)] := by
    unfold extractFramesRoundStep
    rw [if_neg (by norm_num : ¬ (15/2 : ℚ) = 0)]
    rw [show (max 1 (roundHalfEven ((15/2 : ℚ) * 1))).toNat = 8 from by
      norm_num [roundHalfEven, Int.even_iff]
      decide]
    rw [extractGo_eq]
    rw [show ((List.range' 0 9).filter (fun p => p % 8 = 0)).take 30 = [0, 8] from by decide]
    simp only [List.enumFrom, List.map_cons, List.map_nil]
    norm_num
  refine ⟨h1, h2, ?_⟩
  rw [h1, h2]
  simp

/-! ## C9: coordinate mapping -/

theorem clamp_lower (lo hi z : ℤ) : lo ≤ max lo (min hi z) := le_max_left _ _

theorem clamp_upper (lo hi z : ℤ) (h : lo ≤ hi) : max lo (min hi z) ≤ hi :=
  max_le h (min_le_left _ _)

/-- C9: the Gemini-path annotator converts a 0–1000 normalized
`(y_min, x_min, y_max, x_max)` box via `x_px = x * width / 1000`,
`y_px = y * height / 1000` and clamps every pixel coordinate into
`[0, width-1] × [0, height-1]`; the local-model path passes pixel xyxy
boxes through unchanged; and `[0, 0, 1000, 1000]` on a 200×100 image
maps to the pixel box `(0, 0)–(199, 99)`. -/
theorem C9_annotate_boxes :
    (∀ (w h : ℤ) (b : ℤ × ℤ × ℤ × ℤ), 1 ≤ w → 1 ≤ h →
      annotateImageBox w h b =
        ((max 0 (min (w - 1) (pyInt ((b.2.1 * w : ℚ) / 1000))),
          max 0 (min (h - 1) (pyInt ((b.1 * h : ℚ) / 1000)))),
         (max 0 (min (w - 1) (pyInt ((b.2.2.2 * w : ℚ) / 1000))),
          max 0 (min (h - 1) (pyInt ((b.2.2.1 * h : ℚ) / 1000))))) ∧
      (0 ≤ (annotateImageBox w h b).1.1 ∧ (annotateImageBox w h b).1.1 ≤ w - 1 ∧
       0 ≤ (annotateImageBox w h b).1.2 ∧ (annotateImageBox w h b).1.2 ≤ h - 1 ∧
       0 ≤ (annotateImageBox w h b).2.1 ∧ (annotateImageBox w h b).2.1 ≤ w - 1 ∧
       0 ≤ (annotateImageBox w h b).2.2 ∧ (annotateImageBox w h b).2.2 ≤ h - 1)) ∧
    (∀ b : ℤ × ℤ × ℤ × ℤ, annotateYoloBox b = ((b.1, b.2.1), (b.2.2.1, b.2.2.2))) ∧
    annotateImageBox 200 100 (0, 0, 1000, 1000) = ((0, 0), (199, 99)) := by
  refine ⟨fun w h b hw hh => ⟨rfl, ?_, ?_, ?_, ?_, ?_, ?_, ?_, ?_⟩, fun b => rfl, ?_⟩
  · exact clamp_lower _ _ _
  · exact clamp_upper _ _ _ (by omega)
  · exact clamp_lower _ _ _
  · exact clamp_upper _ _ _ (by omega)
  · exact clamp_lower _ _ _
  · exact clamp_upper _ _ _ (by omega)
  · exact clamp_lower _ _ _
  · exact clamp_upper _ _ _ (by omega)
  · norm_num [annotateImageBox, pyInt, Prod.ext_iff]

/-- Witness for C9 at a concrete image size and box. -/
theorem C9_annotate_boxes_witness :
    (1 : ℤ) ≤ 200 ∧ (1 : ℤ) ≤ 100 ∧
    0 ≤ (annotateImageBox 200 100 (0, 0, 1000, 1000)).2.1 ∧
    (annotateImageBox 200 100 (0, 0, 1000, 1000)).2.1 ≤ 200 - 1 :=
  ⟨by decide, by decide,
   ((C9_annotate_boxes.1 200 100 (0, 0, 1000, 1000) (by decide) (by decide)).2).2.2.2.2.1,
   ((C9_annotate_boxes.1 200 100 (0, 0, 1000, 1000) (by decide) (by decide)).2).2.2.2.2.2.1⟩

/-! ## C1 and C4: the defect normalizer -/


theorem dget_insertKey_self (l : List (String × JValue)) (k : String) (v : JValue) :
    dget (insertKey l k v) k = some v := by
  induction l with
  | nil => simp [insertKey, dget]
  | cons p rest ih =>
    obtain ⟨k', v'⟩ := p
    by_cases h : k' = k
    · simp [insertKey, h, dget]
    · simp only [insertKey, if_neg h]
      rw [dget, List.find?_cons_of_neg _ (by simpa using h)]
      exact ih

theorem insertKey_cons_pos (k₀ : String) (v₀ : JValue) (rest : List (String × JValue))
    (k : String) (v : JValue) (h : k₀ = k) :
    insertKey ((k₀, v₀) :: rest) k v = (k₀, v) :: rest := by
  simp only [insertKey, if_pos h]

theorem insertKey_cons_neg (k₀ : String) (v₀ : JValue) (rest : List (String × JValue))
    (k : String) (v : JValue) (h : ¬ k₀ = k) :
    insertKey ((k₀, v₀) :: rest) k v = (k₀, v₀) :: insertKey rest k v := by
  simp only [insertKey, if_neg h]

theorem dget_insertKey_ne (l : List (String × JValue)) (k k' : String) (v : JValue)
    (h : ¬ k' = k) : dget (insertKey l k v) k' = dget l k' := by
  induction l with
  | nil =>
    show dget [(k, v)] k' = dget [] k'
    unfold dget
    rw [List.find?_cons_of_neg _ (by simpa using fun he => h he.symm)]
  | cons p rest ih =>
    obtain ⟨k₀, v₀⟩ := p
    by_cases h0 : k₀ = k
    · rw [insertKey_cons_pos k₀ v₀ rest k v h0]
      by_cases h1 : k₀ = k'
      · exact absurd (h1 ▸ h0) h
      · unfold dget
        rw [List.find?_cons_of_neg _ (by simpa using h1),
          List.find?_cons_of_neg _ (by simpa using h1)]
    · rw [insertKey_cons_neg k₀ v₀ rest k v h0]
      by_cases h1 : k₀ = k'
      · subst h1
        unfold dget
        rw [List.find?_cons_of_pos _ (by simp), List.find?_cons_of_pos _ (by simp)]
      · unfold dget
        rw [List.find?_cons_of_neg _ (by simpa using h1),
          List.find?_cons_of_neg _ (by simpa using h1)]
        exact ih

theorem dget_fixType_type (d : List (String × JValue)) :
    dget (fixType d) "type" =
      if isValidTypeV (dget d "type") then dget d "type" else some (.str "other") := by
  unfold fixType
  split_ifs
  · rfl
  · exact dget_insertKey_self d "type" (.str "other")

theorem dget_fixType_other (d : List (String × JValue)) (k : String) (h : ¬ k = "type") :
    dget (fixType d) k = dget d k := by
  unfold fixType
  split_ifs
  · rfl
  · exact dget_insertKey_ne d "type" k (.str "other") h

theorem dget_fixSeverity_severity (d : List (String × JValue)) :
    dget (fixSeverity d) "severity" =
      if isValidSeverityV (dget d "severity") then dget d "severity"
      else some (.str "medium") := by
  unfold fixSeverity
  split_ifs
  · rfl
  · exact dget_insertKey_self d "severity" (.str "medium")

theorem dget_fixSeverity_other (d : List (String × JValue)) (k : String)
    (h : ¬ k = "severity") : dget (fixSeverity d) k = dget d k := by
  unfold fixSeverity
  split_ifs
  · rfl
  · exact dget_insertKey_ne d "severity" k (.str "medium") h

theorem dget_fixBBox_bbox (d : List (String × JValue)) :
    dget (fixBBox d) "bbox" =
      if isGoodBBox (dget d "bbox") then dget d "bbox" else some fullBBox := by
  unfold fixBBox
  split_ifs
  · rfl
  · exact dget_insertKey_self d "bbox" fullBBox

theorem dget_fixBBox_other (d : List (String × JValue)) (k : String) (h : ¬ k = "bbox") :
    dget (fixBBox d) k = dget d k := by
  unfold fixBBox
  split_ifs
  · rfl
  · exact dget_insertKey_ne d "bbox" k fullBBox h

/-- C4 (amended): on a successful decode the normalizer maps each defect
entry so that an unrecognized `type` becomes `"other"`, an unrecognized
`severity` becomes `"medium"`, and a missing, non-list or wrong-arity
`bbox` becomes the full-image box `[0, 0, 1000, 1000]` — so `bbox` is
always present as a list of exactly 4 values (the source checks only
list-ness and arity, not that the values are numeric) — while
`room_condition` defaults to `"unknown"` and `summary` to the fixed
placeholder when absent. -/
theorem C4_normalizer_mapping :
    (∀ d : List (String × JValue),
      dget (normalizeDefect d) "type" =
        (if isValidTypeV (dget d "type") then dget d "type" else some (.str "other")) ∧
      dget (normalizeDefect d) "severity" =
        (if isValidSeverityV (dget d "severity") then dget d "severity"
         else some (.str "medium")) ∧
      dget (normalizeDefect d) "bbox" =
        (if isGoodBBox (dget d "bbox") then dget d "bbox" else some fullBBox) ∧
      (∃ xs : List JValue, dget (normalizeDefect d) "bbox" = some (.arr xs) ∧
        xs.length = 4)) ∧
    (∀ (kvs : List (String × JValue)) (fa : FrameAnalysis),
      normalizePhase (.obj kvs) = Except.ok fa →
      (dget kvs "room_condition" = none → fa.room_condition = .str "unknown") ∧
      (dget kvs "summary" = none → fa.summary = .str "No summary available.")) := by
  constructor
  · intro d
    have ht : dget (normalizeDefect d) "type" =
        (if isValidTypeV (dget d "type") then dget d "type" else some (.str "other")) := by
      unfold normalizeDefect
      rw [dget_fixBBox_other _ _ (by decide), dget_fixSeverity_other _ _ (by decide),
        dget_fixType_type]
    have hs : dget (normalizeDefect d) "severity" =
        (if isValidSeverityV (dget d "severity") then dget d "severity"
         else some (.str "medium")) := by
      unfold normalizeDefect
      rw [dget_fixBBox_other _ _ (by decide), dget_fixSeverity_severity,
        dget_fixType_other _ _ (by decide)]
    have hb : dget (normalizeDefect d) "bbox" =
        (if isGoodBBox (dget d "bbox") then dget d "bbox" else some fullBBox) := by
      unfold normalizeDefect
      rw [dget_fixBBox_bbox, dget_fixSeverity_other _ _ (by decide),
        dget_fixType_other _ _ (by decide)]
    refine ⟨ht, hs, hb, ?_⟩
    rw [hb]
    by_cases hg : isGoodBBox (dget d "bbox") = true
    · rw [if_pos hg]
      unfold isGoodBBox at hg
      cases hv : dget d "bbox" with
      | none => rw [hv] at hg; exact absurd hg (by simp)
      | some v =>
        rw [hv] at hg
        cases v with
        | arr xs => exact ⟨xs, rfl, by simpa using hg⟩
        | null => exact absurd hg (by simp)
        | bool b => exact absurd hg (by simp)
        | num n => exact absurd hg (by simp)
        | str s => exact absurd hg (by simp)
        | obj kvs => exact absurd hg (by simp)
    · rw [if_neg hg]
      exact ⟨[.num 0, .num 0, .num 1000, .num 1000], rfl, rfl⟩
  · intro kvs fa h
    replace h : Except.map (fun nd : JValue =>
        ({ defects := nd
         , room_condition := (dget kvs "room_condition").getD (JValue.str "unknown")
         , summary := (dget kvs "summary").getD (JValue.str "No summary available.")
         , error := none } : FrameAnalysis))
        (normalizeDefects ((dget kvs "defects").getD (JValue.arr []))) = Except.ok fa := h
    cases hnd : normalizeDefects ((dget kvs "defects").getD (.arr [])) with
    | error e => rw [hnd] at h; exact absurd h (by simp [Except.map])
    | ok nd =>
      rw [hnd] at h
      simp only [Except.map, Except.ok.injEq] at h
      subst h
      constructor
      · intro hr
        show (dget kvs "room_condition").getD (JValue.str "unknown") = JValue.str "unknown"
        rw [hr]
        rfl
      · intro hs
        show (dget kvs "summary").getD (JValue.str "No summary available.") =
          JValue.str "No summary available."
        rw [hs]
        rfl

/-- Witness for C4 at concrete inputs. -/
theorem C4_normalizer_mapping_witness :
    dget (normalizeDefect [("type", .str "weird")]) "type" = some (.str "other") ∧
    normalizePhase (.obj []) =
      Except.ok { defects := .arr [], room_condition := .str "unknown"
                , summary := .str "No summary available.", error := none } ∧
    ({ defects := .arr [], room_condition := .str "unknown"
     , summary := .str "No summary available."
     , error := none } : FrameAnalysis).room_condition = .str "unknown" := by
  refine ⟨?_, rfl, (C4_normalizer_mapping.2 [] _ rfl).1 rfl⟩
  have h := (C4_normalizer_mapping.1 [("type", .str "weird")]).1
  rwa [if_neg (by decide)] at h

/-- Counterexample to C4 as stated: a decoded defect whose `bbox` is a
4-element list of strings passes the normalizer untouched, so the output
bbox is present and of arity 4 but its values are not numeric. -/
theorem C4_bbox_not_numeric_counterexample :
    parseResponse "\x7b\"defects\": [\x7b\"bbox\": [\"a\", \"b\", \"c\", \"d\"]\x7d]\x7d" =
      Except.ok
        { defects := .arr [.obj [("bbox", .arr [.str "a", .str "b", .str "c", .str "d"]),
                                 ("type", .str "other"), ("severity", .str "medium")]]
        , room_condition := .str "unknown"
        , summary := .str "No summary available."
        , error := none } ∧
    isNumV (.str "a") = false :=
  ⟨rfl, rfl⟩

/-- C1: evaluation of the normalizer at the failing input `"[1, 2]"` —
a valid JSON document that is not an object makes `data.get` raise, so
`parse` is not total. -/
theorem C1_parse_raises_on_json_array :
    parseResponse "[1, 2]" = Except.error "AttributeError: object has no attribute get" :=
  rfl

/-! ## C6: fallback-chain exhaustion -/

theorem tryModel_exhausted (oracle : Oracle) (m : String)
    (h : ∀ a, ∃ e, oracle m a = .err e ∧
      (isNotFoundErr e = true ∨ isRateLimitedErr e = true)) :
    ∀ (r a : ℕ), 1 ≤ r →
    ∃ e, (∃ a', oracle m a' = .err e) ∧ tryModel oracle m r a = .inl (some e) := by
  intro r
  induction r with
  | zero => intro a h1; omega
  | succ r ih =>
    intro a _
    obtain ⟨e, he, hcls⟩ := h a
    have hatt : attemptOnce oracle m a = .error e := by
      unfold attemptOnce
      rw [he]
    by_cases hnf : isNotFoundErr e = true
    · refine ⟨e, ⟨a, he⟩, ?_⟩
      simp only [tryModel, hatt]
      rw [if_pos hnf]
    · have hrl : isRateLimitedErr e = true := hcls.resolve_left hnf
      by_cases hr1 : 1 ≤ r
      · obtain ⟨e', he', htm⟩ := ih (a + 1) hr1
        refine ⟨e', he', ?_⟩
        simp only [tryModel, hatt]
        rw [if_neg hnf, if_pos hrl, if_pos hr1]
        exact htm
      · have hr0 : r = 0 := by omega
        subst hr0
        refine ⟨e, ⟨a, he⟩, ?_⟩
        simp only [tryModel, hatt]
        rw [if_neg hnf, if_pos hrl, if_neg hr1]

theorem analyzeLoop_exhausted (oracle : Oracle)
    (h : ∀ m a, ∃ e, oracle m a = .err e ∧
      (isNotFoundErr e = true ∨ isRateLimitedErr e = true)) :
    ∀ (ms : List String) (last : Option String), ¬ ms = [] →
    ∃ e, (∃ m a, oracle m a = .err e) ∧
      analyzeLoop oracle ms last = .ok (degradedAnalyze (some e)) := by
  intro ms
  induction ms with
  | nil => intro last hne; exact absurd rfl hne
  | cons m ms ih =>
    intro last _
    obtain ⟨e, hea, htm⟩ := tryModel_exhausted oracle m (h m) MAX_RETRIES 0 (by decide)
    obtain ⟨a', ha'⟩ := hea
    by_cases hms : ms = []
    · subst hms
      refine ⟨e, ⟨m, a', ha'⟩, ?_⟩
      simp only [analyzeLoop, htm]
    · obtain ⟨e', he', hloop⟩ := ih (some e) hms
      refine ⟨e', he', ?_⟩
      simp only [analyzeLoop, htm]
      exact hloop

/-- C6: when every oracle call fails with a NotFound or RateLimited
classification — so every candidate model exhausts its retry budget —
`analyze_image` returns (never raises) a degraded FrameAnalysis with an
empty defect list, `room_condition = "unknown"`, a summary embedding the
first 200 characters of the last error, and `error` holding the full
error text; the error is one actually produced by the oracle. -/
theorem C6_analyze_image_exhausted (oracle : Oracle) (model_name : String)
    (h : ∀ m a, ∃ e, oracle m a = OracleResult.err e ∧
      (isNotFoundErr e = true ∨ isRateLimitedErr e = true)) :
    ∃ e, (∃ m a, oracle m a = OracleResult.err e) ∧
      analyzeImage oracle model_name = Except.ok
        { defects := JValue.arr []
        , room_condition := JValue.str "unknown"
        , summary := JValue.str ("API error after retries: "
            ++ String.mk (e.data.take 200)
            ++ ". Check your API key quota at https://ai.dev/rate-limit — "
            ++ "you may need to wait a minute or use a different key.")
        , error := some e } := by
  obtain ⟨e, hea, hloop⟩ := analyzeLoop_exhausted oracle h
    (model_name :: MODEL_FALLBACK_CHAIN.filter (fun m => ¬ m = model_name)) none (by simp)
  exact ⟨e, hea, hloop⟩

/-- Witness for C6 with a concrete always-rate-limited oracle. -/
theorem C6_analyze_image_exhausted_witness :
    ∃ e, (∃ m a, (fun (_ : String) (_ : ℕ) => OracleResult.err "429 quota") m a
        = OracleResult.err e) ∧
      analyzeImage (fun _ _ => OracleResult.err "429 quota") "gemini-2.0-flash" = Except.ok
        { defects := JValue.arr []
        , room_condition := JValue.str "unknown"
        , summary := JValue.str ("API error after retries: "
            ++ String.mk ("429 quota".data.take 200)
            ++ ". Check your API key quota at https://ai.dev/rate-limit — "
            ++ "you may need to wait a minute or use a different key.")
        , error := some "429 quota" } := by
  have h := C6_analyze_image_exhausted (fun _ _ => OracleResult.err "429 quota")
    "gemini-2.0-flash" (fun m a => ⟨"429 quota", rfl, Or.inr (by decide)⟩)
  obtain ⟨e, ⟨m, a, he⟩, hres⟩ := h
  cases he
  exact ⟨"429 quota", ⟨m, a, rfl⟩, hres⟩

/-! ## C7: batch analysis -/

theorem analyzeFramesGo_eq (name : String) (total : ℕ) :
    ∀ (fs : List Frame) (i : ℕ),
    analyzeFramesGo name total fs i =
      (fs.map (fun f => match analyzeImage f name with
        | .ok r => r
        | .error e => degradedFrame e),
       (List.range fs.length).map (fun j => (i + j + 1, total))) := by
  intro fs
  induction fs with
  | nil => intro i; rfl
  | cons f fs ih =>
    intro i
    simp only [analyzeFramesGo, ih (i + 1), List.map_cons, List.length_cons]
    refine Prod.ext rfl ?_
    show (i + 1, total) :: (List.range fs.length).map (fun j => (i + 1 + j + 1, total)) =
      (List.range (fs.length + 1)).map (fun j => (i + j + 1, total))
    rw [List.range_succ_eq_map, List.map_cons, List.map_map]
    refine congrArg₂ _ (by simp) ?_
    apply List.map_congr_left
    intro j _
    simp only [Function.comp]
    refine congrArg₂ _ ?_ rfl
    omega

/-- C7: `analyze_frames` analyzes every frame in input order, never
aborts on a failing frame (an analysis that raises contributes the
degraded per-frame dict instead), returns one index-aligned entry per
input frame, and invokes the progress callback exactly once per frame
with `(completed, total)`. -/
theorem C7_analyze_frames (frames : List Frame) (name : String) :
    (analyzeFrames frames name).1 =
      frames.map (fun f => match analyzeImage f name with
        | .ok r => r
        | .error e => degradedFrame e) ∧
    (analyzeFrames frames name).2 =
      (List.range frames.length).map (fun i => (i + 1, frames.length)) ∧
    (analyzeFrames frames name).1.length = frames.length := by
  unfold analyzeFrames
  rw [analyzeFramesGo_eq name frames.length frames 0]
  refine ⟨rfl, ?_, by simp⟩
  show (List.range frames.length).map (fun j => (0 + j + 1, frames.length)) =
    (List.range frames.length).map (fun i => (i + 1, frames.length))
  apply List.map_congr_left
  intro j _
  refine congrArg₂ _ ?_ rfl
  omega

end Inspect
